import Mathlib

/-!
# dsmcert: certificate reconciliation against a remote certificate store

A shallow embedding of `api/base.go`, `api/cert.go` and `checker.go`.

Everything outside the repository (the HTTP transport, `net/url`,
`encoding/json`, the file system, `crypto/tls`, `crypto/x509`) is an oracle,
collected in `Sys`.  Oracles that touch the outside world take and return a
world state of an arbitrary type `σ`, so that two calls of the same operation
may answer differently.  The requests handed to the transport are recorded in
a log, which is how "which remote calls were made" is observed.
-/

set_option autoImplicit false

namespace Dsmcert

/-! ## Data model -/

/-- Go `error` values: a message, possibly wrapping a cause (`%w`).  The
formatted arguments of the messages are left out. -/
inductive Error where
  | text (msg : String)
  | wrap (msg : String) (cause : Error)
  deriving DecidableEq, Repr

/-- A `time.Time`: an instant, in nanoseconds counted from the zero Time, and
the name of the location it is displayed in. -/
structure Time where
  nanos : Int
  zone : String
  deriving DecidableEq, Repr

/-- The zero value of `time.Time`. -/
def Time.zero : Time := { nanos := 0, zone := "UTC" }

/-- Embeds `Time.Equal`: the two values denote the same instant; locations are not
compared. -/
def Time.Equal (t u : Time) : Bool := t.nanos == u.nanos

/-- Embeds `CertIssuer` of `api/cert.go`. -/
structure CertIssuer where
  CN : String
  Country : String
  Org : String
  deriving DecidableEq, Repr

/-- Embeds `CertSubject` of `api/cert.go`. -/
structure CertSubject where
  CommonName : String
  AltNames : List String
  deriving DecidableEq, Repr

/-- Embeds `Cert` of `api/cert.go`; `synoWeirdTs` embeds a `time.Time`. -/
structure Cert where
  Description : String
  Id : String
  IsDefault : Bool
  ValidFrom : Time
  ValidTill : Time
  Issuer : CertIssuer
  Subject : CertSubject
  deriving DecidableEq, Repr

/-- The zero value `Cert{}` (`var existing api.Cert`). -/
def Cert.zero : Cert :=
  { Description := "", Id := "", IsDefault := false,
    ValidFrom := Time.zero, ValidTill := Time.zero,
    Issuer := { CN := "", Country := "", Org := "" },
    Subject := { CommonName := "", AltNames := [] } }

/-- Embeds `Client` of `api/base.go`.  The `*http.Client` is part of `Sys`; the lock
guarding `authSid` has no counterpart in a sequential model. -/
structure Client where
  BaseUrl : String
  User : String
  Password : String
  authSid : String
  deriving DecidableEq, Repr

/-- A Go `map[string]string`, as the list of its entries. -/
abbrev StrMap := List (String × String)

/-- The assignment `m[k] = v`: replaces the entry of `k`, or adds one. -/
def mapSet : StrMap → String → String → StrMap
  | [], k, v => [(k, v)]
  | (k0, v0) :: rest, k, v =>
    if k0 = k then (k, v) :: rest else (k0, v0) :: mapSet rest k v

/-- Embeds `Request` of `api/base.go`. -/
structure Request where
  ApiName : String
  Version : Int
  Path : String
  Method : String
  Params : StrMap
  deriving DecidableEq, Repr

/-- A parsed `*url.URL`: everything but the query, and the query as the list
of its key/value pairs (`u.Query()`; `Encode` is not modelled). -/
structure URL where
  location : String
  Query : List (String × String)
  deriving DecidableEq, Repr

/-- One file part of a multipart body. -/
structure FilePart where
  field : String
  filename : String
  content : String
  deriving DecidableEq, Repr

/-- The multipart body written by `setCert`: file parts, then scalar fields. -/
structure Multipart where
  files : List FilePart
  fields : StrMap
  deriving DecidableEq, Repr

/-- An `*http.Request` as built by this program. -/
structure HttpRequest where
  Method : String
  Url : URL
  Body : Option Multipart
  Header : List (String × String)
  deriving DecidableEq, Repr

/-- The `error` member of `Response`. -/
structure ResponseError where
  Code : Int
  Errors : String
  deriving DecidableEq, Repr

/-- Embeds `Response` of `api/base.go`; `Data` is `none` for a nil `json.RawMessage`. -/
structure Response where
  Data : Option String
  Success : Bool
  Error : ResponseError
  deriving DecidableEq, Repr

/-- The operations of the libraries and of the outside world that the
program calls. -/
structure Sys (σ : Type) where
  /-- Stands for `url.Parse`. -/
  urlParse : String → Except Error URL
  /-- The error of `http.NewRequest(method, u.String(), body)`, if any. -/
  newRequest : String → URL → Option Error
  /-- Lines 117-127 of `Client.Do`: `client.Do(r)`, `ioutil.ReadAll` and
  `json.Unmarshal` into a `Response`. -/
  roundTrip : σ → HttpRequest → Except Error Response × σ
  /-- Stands for `json.Unmarshal` into the login answer: the decoded `Sid`
  and the error. -/
  decodeSid : String → String × Option Error
  /-- Stands for `json.Unmarshal` into the listing answer: `Certs` and the
  error. -/
  decodeCerts : String → List Cert × Option Error
  /-- Stands for `json.Unmarshal` into the answer of the upload: `Id` and the
  error. -/
  decodeId : String → String × Option Error
  /-- Stands for `tls.LoadX509KeyPair(cert, key)`: the DER certificates of the chain. -/
  loadX509KeyPair : σ → String → String → Except Error (List String) × σ
  /-- Stands for `x509.ParseCertificate`: the certificate, reduced to `NotAfter`. -/
  parseCertificate : String → Except Error Time
  /-- Stands for `os.Open`. -/
  openFile : σ → String → Option Error × σ
  /-- Stands for `io.Copy(part, f)`: the content of the opened file, or the error. -/
  copyFile : σ → String → Except Error String × σ
  /-- Stands for `filepath.Base`. -/
  base : String → String
  /-- Stands for `fsnotify.NewWatcher`. -/
  newWatcher : σ → Option Error × σ
  /-- Stands for `watcher.Add`. -/
  watcherAdd : σ → String → Option Error × σ

/-- The outside world together with the log of the requests handed to the
transport so far, oldest first. -/
structure World (σ : Type) where
  env : σ
  sent : List HttpRequest

/-! ## api/base.go -/

/-- The loop `for k, v := range params` of `Client.Url`: an empty value is an
error, any other pair is added to the query. -/
def addParams : StrMap → List (String × String) → Except Error (List (String × String))
  | [], qp => .ok qp
  | (k, v) :: rest, qp =>
    if v = "" then .error (.text "cannot have empty param")
    else addParams rest (qp ++ [(k, v)])

/-- The map `params` of `Client.Url` before the loop over it: the three fixed
entries, overwritten by the request's own params, then by the stored sid. -/
def mergedParams (c : Client) (r : Request) : StrMap :=
  let params : StrMap :=
    [("api", r.ApiName), ("version", toString r.Version), ("method", r.Method)]
  let params := r.Params.foldl (fun m kv => mapSet m kv.1 kv.2) params
  if c.authSid ≠ "" then mapSet params "_sid" c.authSid else params

/-- Embeds `Client.Url`. -/
def Client.Url {σ : Type} (sys : Sys σ) (c : Client) (r : Request) : Except Error URL :=
  if r.Path = "" then .error (.text "must supply request path")
  else
    match sys.urlParse (c.BaseUrl ++ "/" ++ r.Path) with
    | .error e => .error (.wrap "failed to build base url." e)
    | .ok u =>
      match addParams (mergedParams c r) u.Query with
      | .error e => .error e
      | .ok qp => .ok { u with Query := qp }

/-- Embeds `Client.GetRequest`. -/
def Client.GetRequest {σ : Type} (sys : Sys σ) (c : Client) (r : Request) :
    Except Error HttpRequest :=
  match Client.Url sys c r with
  | .error e => .error e
  | .ok u =>
    match sys.newRequest "GET" u with
    | some e => .error e
    | none => .ok { Method := "GET", Url := u, Body := none, Header := [] }

/-- Embeds `Client.Do`.  `data` is the destination pointer: `none` for nil, else the
decoder of its type; `init` is the value the destination holds before the
call.  Returns the error and the value the destination holds afterwards.
With a nil destination `json.Unmarshal(d, &data)` decodes into the local
interface value, which cannot fail on the well-formed `d`. -/
def Client.Do {σ α : Type} (sys : Sys σ) (w : World σ) (r : HttpRequest)
    (data : Option (String → α × Option Error)) (init : α) :
    (Option Error × α) × World σ :=
  let result : Option Error × α :=
    match (sys.roundTrip w.env r).1 with
    | .error e => (some e, init)
    | .ok rspBody =>
      if !rspBody.Success then (some (.text "did not get succss."), init)
      else
        match rspBody.Data, data with
        | some d, some dec => ((dec d).2, (dec d).1)
        | some _, none => (none, init)
        | none, some _ => (some (.text "got nil data but expected"), init)
        | none, none => (none, init)
  (result, { env := (sys.roundTrip w.env r).2, sent := w.sent ++ [r] })

/-- The request built by `Client.Login`. -/
def loginRequest (c : Client) : Request :=
  { ApiName := "SYNO.API.Auth", Path := "auth.cgi", Version := 3, Method := "login",
    Params := [("account", c.User), ("passwd", c.Password), ("format", "sid")] }

/-- Lines 166-190 of `Client.Login`, past the nil check of the receiver.
Returns the error, the client afterwards and the world afterwards. -/
def Client.loginCall {σ : Type} (sys : Sys σ) (c : Client) (w : World σ) :
    Option Error × Client × World σ :=
  match Client.GetRequest sys c (loginRequest c) with
  | .error e => (some e, c, w)
  | .ok req =>
    match Client.Do sys w req (some sys.decodeSid) "" with
    | ((some e, _), w1) => (some (.wrap "failed to login." e), c, w1)
    | ((none, sid), w1) => (none, { c with authSid := sid }, w1)

/-- Embeds `Client.Login`; the receiver is `none` for a nil pointer. -/
def Client.Login {σ : Type} (sys : Sys σ) (c : Option Client) (w : World σ) :
    Option Error × Option Client × World σ :=
  match c with
  | none => (some (.text "nil client when trying to login"), none, w)
  | some c =>
    match Client.loginCall sys c w with
    | (err, c1, w1) => (err, some c1, w1)

/-! ## api/cert.go -/

/-- Embeds `certReq`. -/
def certReq (method : String) : Request :=
  let base := "SYNO.Core.Certificate"
  let base := if method ≠ "import" then base ++ ".CRT" else base
  { ApiName := base, Method := method, Version := 1, Path := "entry.cgi", Params := [] }

/-- Embeds `Client.ListCerts`: returns `resp.Certs` and the error, as the source
does. -/
def Client.ListCerts {σ : Type} (sys : Sys σ) (c : Client) (w : World σ) :
    (List Cert × Option Error) × World σ :=
  match Client.GetRequest sys c (certReq "list") with
  | .error e => (([], some e), w)
  | .ok req =>
    match Client.Do sys w req (some sys.decodeCerts) [] with
    | ((err, certs), w1) => ((certs, err), w1)

/-- The closure `addFile` of `setCert`.  Writing to the in-memory buffer does
not fail, so `CreateFormFile` has no error branch here. -/
def addFile {σ : Type} (sys : Sys σ) (env : σ) (name fp : String) :
    Except Error FilePart × σ :=
  match sys.openFile env fp with
  | (some e, env1) => (.error (.wrap "failed to open file" e), env1)
  | (none, env1) =>
    match sys.copyFile env1 fp with
    | (.error e, env2) => (.error (.wrap "failed to copy contents to form." e), env2)
    | (.ok content, env2) =>
      (.ok { field := name, filename := sys.base fp, content := content }, env2)

/-- The request that `setCert` builds: a POST of the multipart body, whose
fields are written in the order of `attrs` (Go leaves the order of a map
unspecified), with the content type of the form. -/
def importRequest (u : URL) (key cert : FilePart) (attrs : StrMap) : HttpRequest :=
  { Method := "POST", Url := u,
    Body := some { files := [key, cert], fields := attrs },
    Header := [("Content-Type", "multipart/form-data")] }

/-- Embeds `Client.setCert`.  `WriteField` and `Close` write to the in-memory
buffer and have no error branch here. -/
def Client.setCert {σ : Type} (sys : Sys σ) (c : Client) (w : World σ)
    (certPath keyPath : String) (attrs : StrMap) : (String × Option Error) × World σ :=
  match Client.Url sys c (certReq "import") with
  | .error e => (("", some e), w)
  | .ok u =>
    match addFile sys w.env "key" keyPath with
    | (.error e, env1) =>
      (("", some (.wrap "failed to add key file." e)), { w with env := env1 })
    | (.ok key, env1) =>
      match addFile sys env1 "cert" certPath with
      | (.error e, env2) =>
        (("", some (.wrap "failed to add cert file." e)), { w with env := env2 })
      | (.ok cert, env2) =>
        match sys.newRequest "POST" u with
        | some e =>
          (("", some (.wrap "failed to create request." e)), { w with env := env2 })
        | none =>
          let req := importRequest u key cert attrs
          let out := Client.Do sys { w with env := env2 } req (some sys.decodeId) ""
          match out.1 with
          | (some e, _) => (("", some (.wrap "failed to import cert." e)), out.2)
          | (none, id) => ((id, none), out.2)

/-- Embeds `Client.UploadNewCert`. -/
def Client.UploadNewCert {σ : Type} (sys : Sys σ) (c : Client) (w : World σ)
    (desc certPath keyPath : String) : (String × Option Error) × World σ :=
  Client.setCert sys c w certPath keyPath [("desc", desc)]

/-- The loop of `ReUploadCert`: `cert` becomes the first entry whose `Id` is
`id`. -/
def findById (id : String) : List Cert → Cert → Cert
  | [], cert => cert
  | c :: rest, cert => if c.Id = id then c else findById id rest cert

/-- Embeds `fmt.Sprintf` with the verb `%t`. -/
def fmtBool (b : Bool) : String := if b then "true" else "false"

/-- The map `attrs` built by `ReUploadCert`. -/
def replaceAttrs (cert : Cert) : StrMap :=
  [("id", cert.Id), ("desc", cert.Description), ("as_default", fmtBool cert.IsDefault)]

/-- Embeds `Client.ReUploadCert`. -/
def Client.ReUploadCert {σ : Type} (sys : Sys σ) (c : Client) (w : World σ)
    (id certPath keyPath : String) : Option Error × World σ :=
  match Client.ListCerts sys c w with
  | ((_, some e), w1) => (some (.wrap "failed to list certs." e), w1)
  | ((certs, none), w1) =>
    let cert := findById id certs Cert.zero
    if cert.Id = "" then (some (.text "failed to find cert with id"), w1)
    else
      match Client.setCert sys c w1 certPath keyPath (replaceAttrs cert) with
      | ((_, some e), w2) => (some (.wrap "failed to reupload cert." e), w2)
      | ((newId, none), w2) =>
        if newId ≠ id then (some (.text "the cert id has changed"), w2) else (none, w2)

/-! ## checker.go -/

/-- Embeds `CertCfg`. -/
structure CertCfg where
  Id : String
  Desc : String
  Cert : String
  Key : String
  deriving DecidableEq, Repr

/-- An `*x509.Certificate`, reduced to the field the program reads. -/
structure Certificate where
  NotAfter : Time
  deriving DecidableEq, Repr

/-- Embeds `FirstCert`: the Go pair of the certificate pointer and the error. -/
def FirstCert {σ : Type} (sys : Sys σ) (env : σ) (cert key : String) :
    (Option Certificate × Option Error) × σ :=
  match sys.loadX509KeyPair env cert key with
  | (.error e, env1) => ((none, some e), env1)
  | (.ok [], env1) => ((none, some (.text "no certs in file")), env1)
  | (.ok (der :: _), env1) =>
    match sys.parseCertificate der with
    | .error e => ((none, some e), env1)
    | .ok notAfter => ((some { NotAfter := notAfter }, none), env1)

/-- The loop of `CheckOnce` over `existingCerts` (lines 110-121), started
with the current value of `existing`. -/
def matchLoop (cfg : CertCfg) : List Cert → Cert → Cert
  | [], existing => existing
  | c :: rest, existing =>
    let existing :=
      if cfg.Id ≠ "" then
        if cfg.Id = c.Id then c else existing
      else if cfg.Desc ≠ "" ∧ cfg.Desc = c.Description then c
      else existing
    if existing.Id ≠ "" then existing else matchLoop cfg rest existing

/-- Embeds `CheckOnce`; `client` and `cfg` are `none` for nil pointers.  Returns the
error, the client afterwards and the world afterwards.  The id returned by
`UploadNewCert` is assigned to a local variable and not used again. -/
def CheckOnce {σ : Type} (sys : Sys σ) (client : Option Client) (cfg : Option CertCfg)
    (w : World σ) : Option Error × Option Client × World σ :=
  match client, cfg with
  | none, _ => (some (.text "got nil client"), none, w)
  | some c0, none => (some (.text "got nil config"), some c0, w)
  | some c0, some cfg =>
    match FirstCert sys w.env cfg.Cert cfg.Key with
    | ((_, some e), env1) =>
      (some (.wrap "failed to load local cert." e), some c0, { w with env := env1 })
    | ((none, none), env1) =>
      (some (.text "failed to load local cert."), some c0, { w with env := env1 })
    | ((some ourCert, none), env1) =>
      let localValidTill := ourCert.NotAfter
      match Client.loginCall sys c0 { w with env := env1 } with
      | (some e, c, w2) => (some (.wrap "failed to login." e), some c, w2)
      | (none, c, w2) =>
        match Client.ListCerts sys c w2 with
        | ((_, some e), w3) => (some (.wrap "failed to list certs." e), some c, w3)
        | ((existingCerts, none), w3) =>
          let existing := matchLoop cfg existingCerts Cert.zero
          let id := existing.Id
          if id = "" then
            if cfg.Id ≠ "" then (some (.text "no cert found with id"), some c, w3)
            else
              match Client.UploadNewCert sys c w3 cfg.Desc cfg.Cert cfg.Key with
              | ((_, some e), w4) => (some (.wrap "failed to put cert." e), some c, w4)
              | ((_, none), w4) => (none, some c, w4)
          else if existing.ValidTill.Equal localValidTill then (none, some c, w3)
          else
            match Client.ReUploadCert sys c w3 id cfg.Cert cfg.Key with
            | (some e, w4) => (some (.wrap "failed to put cert." e), some c, w4)
            | (none, w4) => (none, some c, w4)

/-- Embeds `maxUpdateFreq`, a `time.Duration`: nanoseconds. -/
def maxUpdateFreq : Int := 30 * 1000000000

/-- Embeds `Time.Sub`: the difference of the instants, saturating at the ends of the
range of `time.Duration` (an int64 of nanoseconds). -/
def Time.Sub (t u : Time) : Int :=
  let d := t.nanos - u.nanos
  if d > 2 ^ 63 - 1 then 2 ^ 63 - 1
  else if d < -(2 ^ 63) then -(2 ^ 63)
  else d

/-- The readings of the clock that one call of `doCheck` makes: `since` is read
by `time.Since(last)`, `now` by `last = time.Now()`. -/
structure Clock where
  since : Time
  now : Time
  deriving DecidableEq, Repr

/-- The variables that `doCheck` closes over, with the list of the values
assigned to `last` so far (the start times of the attempts that ran), oldest
first. -/
structure Loop (σ : Type) where
  last : Time
  client : Option Client
  world : World σ
  starts : List Time

/-- The closure `doCheck` of `CheckForever`.  The mutex has no counterpart in
a sequential model. -/
def doCheck {σ : Type} (sys : Sys σ) (cfg : Option CertCfg) (clk : Clock) (st : Loop σ) :
    Option Error × Loop σ :=
  let dur := clk.since.Sub st.last
  if dur < maxUpdateFreq then (none, st)
  else
    match CheckOnce sys st.client cfg st.world with
    | (err, client, world) =>
      (err, { last := clk.now, client := client, world := world,
              starts := st.starts ++ [clk.now] })

/-- What the `select` of `CheckForever` receives. -/
inductive Event where
  | tick (clk : Clock)
  | fileEvent (clk : Clock)
  | eventsClosed
  | watchError
  | errorsClosed
  deriving DecidableEq, Repr

/-- How far a call has come: still waiting in `select`, returned, or
panicked. -/
inductive Outcome where
  | waiting
  | returned (err : Option Error)
  | panicked
  deriving DecidableEq, Repr

/-- The `for` loop of `CheckForever`, fed with the events its `select`
receives, in order. -/
def eventLoop {σ : Type} (sys : Sys σ) (cfg : Option CertCfg) :
    List Event → Loop σ → Outcome × Loop σ
  | [], st => (.waiting, st)
  | .tick clk :: rest, st =>
    match doCheck sys cfg clk st with
    | (some e, st1) => (.returned (some e), st1)
    | (none, st1) => eventLoop sys cfg rest st1
  | .fileEvent clk :: rest, st =>
    match doCheck sys cfg clk st with
    | (some e, st1) => (.returned (some e), st1)
    | (none, st1) => eventLoop sys cfg rest st1
  | .eventsClosed :: _, st => (.returned none, st)
  | .watchError :: rest, st => eventLoop sys cfg rest st
  | .errorsClosed :: _, st => (.returned none, st)

/-- The two `watcher.Add` calls of `CheckForever`. -/
def addWatches {σ : Type} (sys : Sys σ) : List String → σ → Option Error × σ
  | [], env => (none, env)
  | f :: rest, env =>
    match sys.watcherAdd env f with
    | (some e, env1) => (some (.wrap "failed to watch." e), env1)
    | (none, env1) => addWatches sys rest env1

/-- Embeds `CheckForever`.  `first` holds the clock readings of the call of `doCheck`
before the loop, `events` what the `select` receives afterwards.
`time.NewTicker` panics on a period that is not positive. -/
def CheckForever {σ : Type} (sys : Sys σ) (client : Option Client) (cfg : Option CertCfg)
    (freq : Int) (first : Clock) (events : List Event) (w : World σ) :
    Outcome × Loop σ :=
  let st0 : Loop σ := { last := Time.zero, client := client, world := w, starts := [] }
  match cfg with
  | none => (.returned (some (.text "got nil config")), st0)
  | some cfg =>
    if freq ≤ 0 then (.panicked, st0)
    else
      match sys.newWatcher w.env with
      | (some e, env1) =>
        (.returned (some (.wrap "failed to create file watcher." e)),
          { st0 with world := { w with env := env1 } })
      | (none, env1) =>
        match addWatches sys [cfg.Cert, cfg.Key] env1 with
        | (some e, env2) =>
          (.returned (some e), { st0 with world := { w with env := env2 } })
        | (none, env2) =>
          match doCheck sys (some cfg) first { st0 with world := { w with env := env2 } } with
          | (some e, st1) => (.returned (some e), st1)
          | (none, st1) => eventLoop sys (some cfg) events st1

/-- The certificate that the matching loop of `CheckOnce` selected: line 124
takes `existing` for a match exactly when its `Id` is not empty. -/
def selected (cfg : CertCfg) (certs : List Cert) : Option Cert :=
  let existing := matchLoop cfg certs Cert.zero
  if existing.Id = "" then none else some existing

/-- The attribute maps of the import calls in a log of requests: the fields of
every request that carries a multipart body. -/
def sentImports (log : List HttpRequest) : List StrMap :=
  log.filterMap (fun r => r.Body.map (fun b => b.fields))

/-- The attempt that `CheckOnce` starts on client `c0` in world `w` gets past
lines 94-108: the local pair loads and gives `ourCert`, the login succeeds
and leaves the client as `c`, and the listing succeeds with `certs`, in
world `w3`. -/
def ReachesListing {σ : Type} (sys : Sys σ) (cfg : CertCfg) (c0 : Client) (w : World σ)
    (ourCert : Certificate) (c : Client) (certs : List Cert) (w3 : World σ) : Prop :=
  ∃ (env1 : σ) (w2 : World σ),
    FirstCert sys w.env cfg.Cert cfg.Key = ((some ourCert, none), env1) ∧
    Client.loginCall sys c0 { w with env := env1 } = (none, c, w2) ∧
    Client.ListCerts sys c w2 = ((certs, none), w3)

/-- Reconciliation attempts one after the other, `n` of them, each on the
client and the world the one before left: the errors returned, in order,
and the client and the world at the end. -/
def repeatCheckOnce {σ : Type} (sys : Sys σ) (cfg : Option CertCfg) :
    Nat → Option Client → World σ → List (Option Error) × Option Client × World σ
  | 0, client, w => ([], client, w)
  | n + 1, client, w =>
    match CheckOnce sys client cfg w with
    | (err, client1, w1) =>
      match repeatCheckOnce sys cfg n client1 w1 with
      | (errs, client2, w2) => (err :: errs, client2, w2)

/-- The start times recorded so far are at least `maxUpdateFreq` apart, and
none is later than `last`. -/
def Spaced {σ : Type} (st : Loop σ) : Prop :=
  st.starts.Pairwise (fun a b => a.nanos + maxUpdateFreq ≤ b.nanos) ∧
  ∀ a ∈ st.starts, a.nanos ≤ st.last.nanos

/-! ## Sample data -/

/-- A certificate with the given description, id, default flag and end of
validity. -/
def mkCert (desc id : String) (isDefault : Bool) (validTill : Int) : Cert :=
  { Cert.zero with
    Description := desc, Id := id, IsDefault := isDefault,
    ValidTill := { nanos := validTill, zone := "UTC" } }

/-- A system for the examples: every URL parses, every file opens when
`filesOk`, every round trip succeeds and counts up the world state, the
listing decodes to `certs`, an import answers `importId`, and the local
certificate expires at instant `notAfter`. -/
def demoSys (certs : List Cert) (importId : String) (filesOk : Bool) (notAfter : Int) :
    Sys Nat :=
  { urlParse := fun s => .ok { location := s, Query := [] }
    newRequest := fun _ _ => none
    roundTrip := fun n _ =>
      (.ok { Data := some "data", Success := true, Error := { Code := 0, Errors := "" } },
        n + 1)
    decodeSid := fun _ => ("sid1", none)
    decodeCerts := fun _ => (certs, none)
    decodeId := fun _ => (importId, none)
    loadX509KeyPair := fun n _ _ => (.ok ["der"], n)
    parseCertificate := fun _ => .ok { nanos := notAfter, zone := "Local" }
    openFile := fun n _ => (if filesOk then none else some (.text "no such file"), n)
    copyFile := fun n fp => (.ok fp, n)
    base := fun fp => fp
    newWatcher := fun n => (none, n)
    watcherAdd := fun n _ => (none, n) }

/-- The client of the examples. -/
def demoClient : Client :=
  { BaseUrl := "https://1.2.3.4:5678/webapi", User := "u", Password := "p", authSid := "" }

/-- The world the examples start in. -/
def demoWorld : World Nat := { env := 0, sent := [] }

/-- The configuration of the examples that selects by id. -/
def cfgById : CertCfg := { Id := "x", Desc := "d", Cert := "tls.crt", Key := "tls.key" }

/-- The configuration of the examples that selects by description. -/
def cfgByDesc : CertCfg := { Id := "", Desc := "d", Cert := "tls.crt", Key := "tls.key" }

/-- The sample client once logged in. -/
def demoClientIn : Client := { demoClient with authSid := "sid1" }

/-- A pair of clock readings, in whole seconds. -/
def clockAt (since now : Int) : Clock :=
  { since := { nanos := since * 1000000000, zone := "Local" },
    now := { nanos := now * 1000000000, zone := "Local" } }

/-! ## The matching loop -/

theorem matchLoop_id_zero (cfg : CertCfg) (hid : cfg.Id ≠ "") (certs : List Cert) :
    matchLoop cfg certs Cert.zero =
      (certs.find? (fun c => c.Id == cfg.Id)).getD Cert.zero := by
  induction certs with
  | nil => rfl
  | cons c rest ih =>
    by_cases h : cfg.Id = c.Id
    · have hc : c.Id ≠ "" := fun h0 => hid (h.trans h0)
      simp [matchLoop, hid, h, hc, List.find?]
    · have h2 : (c.Id == cfg.Id) = false := by
        simpa using fun h0 : c.Id = cfg.Id => h h0.symm
      simp only [matchLoop, List.find?, h2]
      simp [hid, h, Cert.zero]
      simpa [Cert.zero] using ih

theorem selected_id (cfg : CertCfg) (hid : cfg.Id ≠ "") (certs : List Cert) :
    selected cfg certs = certs.find? (fun c => c.Id == cfg.Id) := by
  unfold selected
  rw [matchLoop_id_zero cfg hid]
  cases hf : certs.find? (fun c => c.Id == cfg.Id) with
  | none => simp [Cert.zero]
  | some m =>
    have hm : m.Id = cfg.Id := by simpa using List.find?_some hf
    simp [hm, hid]

theorem matchLoop_desc (cfg : CertCfg) (hid : cfg.Id = "") (hdesc : cfg.Desc ≠ "")
    (certs : List Cert) :
    ∀ existing : Cert, existing.Id = "" →
      (∀ m, certs.find? (fun c => c.Description == cfg.Desc && c.Id != "") = some m →
        matchLoop cfg certs existing = m) ∧
      (certs.find? (fun c => c.Description == cfg.Desc && c.Id != "") = none →
        (matchLoop cfg certs existing).Id = "") := by
  induction certs with
  | nil => intro existing he; simp [matchLoop, he]
  | cons c rest ih =>
    intro existing he
    by_cases hd : cfg.Desc = c.Description
    · have hcd : c.Description ≠ "" := fun h0 => hdesc (hd.trans h0)
      by_cases hc : c.Id = ""
      · have hp : (c.Description == cfg.Desc && c.Id != "") = false := by simp [hc]
        simp only [List.find?, hp]
        have := ih c hc
        simpa [matchLoop, hid, hcd, hd, hc] using this
      · have hp : (c.Description == cfg.Desc && c.Id != "") = true := by simp [hc, hd]
        simp only [List.find?, hp]
        simp [matchLoop, hid, hcd, hd, hc]
    · have hp : (c.Description == cfg.Desc && c.Id != "") = false := by
        have : ¬ c.Description = cfg.Desc := fun h0 => hd h0.symm
        simp [this]
      simp only [List.find?, hp]
      have := ih existing he
      simpa [matchLoop, hid, hdesc, hd, he] using this

theorem find_desc_nonempty (desc : String) (certs : List Cert) (m : Cert)
    (hm : certs.find? (fun c => c.Description == desc) = some m) (hne : m.Id ≠ "") :
    certs.find? (fun c => c.Description == desc && c.Id != "") = some m := by
  induction certs with
  | nil => simp at hm
  | cons c rest ih =>
    by_cases hc : c.Description = desc
    · have h1 : (c.Description == desc) = true := by simp [hc]
      simp only [List.find?_cons, h1] at hm
      have hcm : c = m := by simpa using hm
      subst hcm
      have h2 : (c.Description == desc && c.Id != "") = true := by simp [hc, hne]
      simp only [List.find?_cons, h2]
    · have h1 : (c.Description == desc) = false := by simp [hc]
      have h2 : (c.Description == desc && c.Id != "") = false := by simp [hc]
      simp only [List.find?_cons, h1] at hm
      simp only [List.find?_cons, h2]
      exact ih hm

/-- C1: with a non-empty `cfg.Id` the matching loop of `CheckOnce` selects the
first entry of the listing whose `Id` equals `cfg.Id`, whatever `cfg.Desc`
is (nothing when there is no such entry); an entry whose `Description`
equals `cfg.Desc` but whose `Id` differs from `cfg.Id` is never selected. -/
theorem C1_selector_priority (cfg : CertCfg) (certs : List Cert) (hid : cfg.Id ≠ "") :
    selected cfg certs = certs.find? (fun c => c.Id == cfg.Id) ∧
    matchLoop cfg certs Cert.zero =
      (certs.find? (fun c => c.Id == cfg.Id)).getD Cert.zero ∧
    ∀ c : Cert, c.Description = cfg.Desc → c.Id ≠ cfg.Id → selected cfg certs ≠ some c := by
  refine ⟨selected_id cfg hid certs, matchLoop_id_zero cfg hid certs, ?_⟩
  intro c _ hne hsel
  rw [selected_id cfg hid certs] at hsel
  have : c.Id = cfg.Id := by simpa using List.find?_some hsel
  exact hne this

/-- C1 at a listing in which the description matches the first entry and the
id the second. -/
theorem C1_selector_priority_witness :
    selected { Id := "x", Desc := "d", Cert := "c.pem", Key := "k.pem" }
        [mkCert "d" "y" false 5, mkCert "e" "x" true 7] = some (mkCert "e" "x" true 7) ∧
    selected { Id := "x", Desc := "d", Cert := "c.pem", Key := "k.pem" }
        [mkCert "d" "y" false 5, mkCert "e" "x" true 7] ≠ some (mkCert "d" "y" false 5) := by
  have h := C1_selector_priority { Id := "x", Desc := "d", Cert := "c.pem", Key := "k.pem" }
    [mkCert "d" "y" false 5, mkCert "e" "x" true 7] (by decide)
  refine ⟨h.1.trans (by decide), h.2.2 _ rfl (by decide)⟩

/-- C6 as stated fails: the first entry with the configured description has
an empty `Id`, the loop goes on and selects the second one. -/
theorem C6_first_desc_match_counterexample :
    ¬ ∀ (cfg : CertCfg) (certs : List Cert), cfg.Id = "" → cfg.Desc ≠ "" →
      ∀ m : Cert, certs.find? (fun c => c.Description == cfg.Desc) = some m →
        matchLoop cfg certs Cert.zero = m := by
  intro h
  have h1 := h { Id := "", Desc := "d", Cert := "c.pem", Key := "k.pem" }
    [mkCert "d" "" false 5, mkCert "d" "x" false 7] rfl (by decide)
    (mkCert "d" "" false 5) (by decide)
  revert h1
  decide

/-- C6, amended: with an empty `cfg.Id` and a non-empty `cfg.Desc` the matching
loop selects the first entry whose `Description` equals `cfg.Desc` and whose
`Id` is not empty; so when the first entry with that description has a
non-empty `Id`, it is the one selected. -/
theorem C6_first_desc_match (cfg : CertCfg) (certs : List Cert)
    (hid : cfg.Id = "") (hdesc : cfg.Desc ≠ "") :
    (∀ m : Cert,
      certs.find? (fun c => c.Description == cfg.Desc && c.Id != "") = some m →
        matchLoop cfg certs Cert.zero = m ∧ selected cfg certs = some m) ∧
    (∀ m : Cert, certs.find? (fun c => c.Description == cfg.Desc) = some m → m.Id ≠ "" →
        matchLoop cfg certs Cert.zero = m ∧ selected cfg certs = some m) := by
  have key : ∀ m : Cert,
      certs.find? (fun c => c.Description == cfg.Desc && c.Id != "") = some m →
        matchLoop cfg certs Cert.zero = m ∧ selected cfg certs = some m := by
    intro m hm
    have h1 := (matchLoop_desc cfg hid hdesc certs Cert.zero rfl).1 m hm
    have h2 : m.Id ≠ "" := by
      have := List.find?_some hm
      simp at this
      exact this.2
    exact ⟨h1, by simp [selected, h1, h2]⟩
  exact ⟨key, fun m hm hne => key m (find_desc_nonempty cfg.Desc certs m hm hne)⟩

/-- C6 (amended) at a listing whose first entry with the description has an
empty id. -/
theorem C6_first_desc_match_witness :
    matchLoop { Id := "", Desc := "d", Cert := "c.pem", Key := "k.pem" }
        [mkCert "d" "" false 5, mkCert "d" "x" false 7, mkCert "d" "y" false 9] Cert.zero
      = mkCert "d" "x" false 7 :=
  ((C6_first_desc_match { Id := "", Desc := "d", Cert := "c.pem", Key := "k.pem" }
    [mkCert "d" "" false 5, mkCert "d" "x" false 7, mkCert "d" "y" false 9]
    rfl (by decide)).1 (mkCert "d" "x" false 7) (by decide)).1

/-! ## Building the request URL -/

theorem mapSet_mem_self (m : StrMap) (k v : String) : (k, v) ∈ mapSet m k v := by
  induction m with
  | nil => simp [mapSet]
  | cons kv rest ih =>
    obtain ⟨k0, v0⟩ := kv
    by_cases h : k0 = k
    · simp [mapSet, h]
    · simp [mapSet, h, ih]

theorem mapSet_mem_of_ne (m : StrMap) (k v k0 v0 : String) (h : (k0, v0) ∈ m)
    (hne : k0 ≠ k) : (k0, v0) ∈ mapSet m k v := by
  induction m with
  | nil => simp at h
  | cons kv rest ih =>
    obtain ⟨k1, v1⟩ := kv
    by_cases h1 : k1 = k
    · have hrest : (k0, v0) ∈ rest := by
        rcases List.mem_cons.1 h with heq | hin
        · exact absurd ((Prod.mk.inj heq).1.trans h1) hne
        · exact hin
      simp [mapSet, h1, hrest]
    · rcases List.mem_cons.1 h with heq | hin
      · simp [mapSet, h1, heq]
      · simp [mapSet, h1, ih hin]

theorem foldl_mapSet_mem_of_not_key (l m : StrMap) (k v : String) (h : (k, v) ∈ m)
    (hk : ∀ kv ∈ l, kv.1 ≠ k) :
    (k, v) ∈ l.foldl (fun m kv => mapSet m kv.1 kv.2) m := by
  induction l generalizing m with
  | nil => simpa using h
  | cons kv rest ih =>
    simp only [List.foldl_cons]
    apply ih
    · exact mapSet_mem_of_ne m kv.1 kv.2 k v h (fun h0 => hk kv (by simp) h0.symm)
    · exact fun kv1 h1 => hk kv1 (List.mem_cons_of_mem _ h1)

theorem foldl_mapSet_mem_of_nodup (l m : StrMap) (k v : String) (h : (k, v) ∈ l)
    (hnd : (l.map Prod.fst).Nodup) :
    (k, v) ∈ l.foldl (fun m kv => mapSet m kv.1 kv.2) m := by
  induction l generalizing m with
  | nil => simp at h
  | cons kv rest ih =>
    simp only [List.map_cons, List.nodup_cons] at hnd
    simp only [List.foldl_cons]
    rcases List.mem_cons.1 h with heq | hin
    · subst heq
      apply foldl_mapSet_mem_of_not_key
      · exact mapSet_mem_self m k v
      · intro kv1 h1 h2
        exact hnd.1 (List.mem_map.2 ⟨kv1, h1, h2⟩)
    · exact ih _ hin hnd.2

theorem addParams_error (m : StrMap) (qp : List (String × String))
    (h : ∃ kv ∈ m, kv.2 = "") : ∃ e, addParams m qp = .error e := by
  induction m generalizing qp with
  | nil => simp at h
  | cons kv rest ih =>
    obtain ⟨k, v⟩ := kv
    by_cases hv : v = ""
    · exact ⟨.text "cannot have empty param", by simp [addParams, hv]⟩
    · obtain ⟨kv1, h1, h2⟩ := h
      rcases List.mem_cons.1 h1 with heq | hin
      · subst heq; exact absurd h2 hv
      · obtain ⟨e, he⟩ := ih (qp ++ [(k, v)]) ⟨kv1, hin, h2⟩
        exact ⟨e, by simp [addParams, hv, he]⟩

theorem Url_error_of_empty_merged {σ : Type} (sys : Sys σ) (c : Client) (r : Request)
    (h : ∃ kv ∈ mergedParams c r, kv.2 = "") : ∃ e, Client.Url sys c r = .error e := by
  unfold Client.Url
  by_cases hp : r.Path = ""
  · exact ⟨.text "must supply request path", by simp [hp]⟩
  · simp only [hp, if_false]
    cases hu : sys.urlParse (c.BaseUrl ++ "/" ++ r.Path) with
    | error e => exact ⟨_, rfl⟩
    | ok u =>
      obtain ⟨e, he⟩ := addParams_error (mergedParams c r) u.Query h
      exact ⟨e, by simp [he]⟩

theorem mergedParams_mem_of_ne_sid (c : Client) (r : Request) (k v : String)
    (h : (k, v) ∈ r.Params.foldl (fun m kv => mapSet m kv.1 kv.2)
      [("api", r.ApiName), ("version", toString r.Version), ("method", r.Method)])
    (hsid : k ≠ "_sid" ∨ c.authSid = "") : (k, v) ∈ mergedParams c r := by
  unfold mergedParams
  by_cases hs : c.authSid = ""
  · simpa [hs] using h
  · simp only [ne_eq, hs, not_false_eq_true, if_true]
    rcases hsid with hk | h0
    · exact mapSet_mem_of_ne _ _ _ _ _ h hk
    · exact absurd h0 hs

/-- C9 as stated fails: a caller-supplied param named `api` overwrites the
empty api name, and the stored token overwrites an empty caller-supplied
`_sid`; in both cases the URL is built. -/
theorem C9_url_rejects_empty_counterexample :
    (¬ ∀ (sys : Sys Nat) (c : Client) (r : Request),
      (r.ApiName = "" ∨ r.Method = "") → ∃ e, Client.Url sys c r = .error e) ∧
    (¬ ∀ (sys : Sys Nat) (c : Client) (r : Request),
      (∃ kv ∈ r.Params, kv.2 = "") → ∃ e, Client.Url sys c r = .error e) := by
  constructor
  · intro h
    obtain ⟨e, he⟩ := h (demoSys [] "" true 0) demoClient
      { ApiName := "", Version := 1, Path := "entry.cgi", Method := "list",
        Params := [("api", "SYNO.Core.Certificate.CRT")] } (Or.inl rfl)
    have hu : ∃ u, Client.Url (demoSys [] "" true 0) demoClient
        { ApiName := "", Version := 1, Path := "entry.cgi", Method := "list",
          Params := [("api", "SYNO.Core.Certificate.CRT")] } = .ok u := ⟨_, rfl⟩
    obtain ⟨u, hu⟩ := hu
    rw [hu] at he
    cases he
  · intro h
    obtain ⟨e, he⟩ := h (demoSys [] "" true 0) { demoClient with authSid := "tok" }
      { ApiName := "SYNO.Core.Certificate.CRT", Version := 1, Path := "entry.cgi",
        Method := "list", Params := [("_sid", "")] } ⟨("_sid", ""), by simp, rfl⟩
    have hu : ∃ u, Client.Url (demoSys [] "" true 0) { demoClient with authSid := "tok" }
        { ApiName := "SYNO.Core.Certificate.CRT", Version := 1, Path := "entry.cgi",
          Method := "list", Params := [("_sid", "")] } = .ok u := ⟨_, rfl⟩
    obtain ⟨u, hu⟩ := hu
    rw [hu] at he
    cases he

/-- C9, amended: `Client.Url` returns an error and no URL when `Request.Path`
is empty, and when any value of the merged parameter map is empty: so when
the api name or the method is empty and no caller-supplied param has the
key `api`, respectively `method`, and when a caller-supplied param has an
empty value, unless its key is `_sid` and a token is stored (the keys of a
map are distinct). -/
theorem C9_url_rejects_empty {σ : Type} (sys : Sys σ) (c : Client) (r : Request) :
    (r.Path = "" → ∃ e, Client.Url sys c r = .error e) ∧
    ((∃ kv ∈ mergedParams c r, kv.2 = "") → ∃ e, Client.Url sys c r = .error e) ∧
    (r.ApiName = "" → (∀ kv ∈ r.Params, kv.1 ≠ "api") →
      ∃ e, Client.Url sys c r = .error e) ∧
    (r.Method = "" → (∀ kv ∈ r.Params, kv.1 ≠ "method") →
      ∃ e, Client.Url sys c r = .error e) ∧
    (∀ kv ∈ r.Params, kv.2 = "" → (r.Params.map Prod.fst).Nodup →
      (kv.1 ≠ "_sid" ∨ c.authSid = "") → ∃ e, Client.Url sys c r = .error e) := by
  refine ⟨?_, Url_error_of_empty_merged sys c r, ?_, ?_, ?_⟩
  · intro hp
    exact ⟨.text "must supply request path", by simp [Client.Url, hp]⟩
  · intro ha hk
    apply Url_error_of_empty_merged
    refine ⟨("api", ""), mergedParams_mem_of_ne_sid c r _ _ ?_ (Or.inl (by decide)), rfl⟩
    exact foldl_mapSet_mem_of_not_key _ _ _ _ (by simp [ha]) hk
  · intro hm hk
    apply Url_error_of_empty_merged
    refine ⟨("method", ""), mergedParams_mem_of_ne_sid c r _ _ ?_ (Or.inl (by decide)), rfl⟩
    exact foldl_mapSet_mem_of_not_key _ _ _ _ (by simp [hm]) hk
  · intro kv hin hv hnd hsid
    apply Url_error_of_empty_merged
    refine ⟨kv, mergedParams_mem_of_ne_sid c r kv.1 kv.2 ?_ hsid, hv⟩
    exact foldl_mapSet_mem_of_nodup _ _ _ _ hin hnd

/-- C9 (amended) at a request whose method is empty and whose params leave
`method` alone. -/
theorem C9_url_rejects_empty_witness :
    ∃ e, Client.Url (demoSys [] "" true 0) demoClient
      { ApiName := "SYNO.API.Auth", Version := 3, Path := "auth.cgi", Method := "",
        Params := [("account", "u")] } = .error e :=
  (C9_url_rejects_empty (demoSys [] "" true 0) demoClient
    { ApiName := "SYNO.API.Auth", Version := 3, Path := "auth.cgi", Method := "",
      Params := [("account", "u")] }).2.2.2.1 rfl (by decide)

/-! ## Login -/

/-- C10: when `Login` returns an error the client, and so its stored token,
is what it was before; when `Login` returns nil the login request was built
and sent, the envelope had `success` and `data`, the data decoded, and the
stored token is the decoded `sid`. -/
theorem C10_login_atomicity {σ : Type} (sys : Sys σ) (c : Client) (w : World σ) :
    (∀ e, (Client.Login sys (some c) w).1 = some e →
      (Client.Login sys (some c) w).2.1 = some c) ∧
    ((Client.Login sys (some c) w).1 = none →
      ∃ req rsp d, Client.GetRequest sys c (loginRequest c) = .ok req ∧
        (sys.roundTrip w.env req).1 = .ok rsp ∧ rsp.Success = true ∧ rsp.Data = some d ∧
        (sys.decodeSid d).2 = none ∧
        (Client.Login sys (some c) w).2.1 = some { c with authSid := (sys.decodeSid d).1 }) := by
  simp only [Client.Login, Client.loginCall]
  cases hq : Client.GetRequest sys c (loginRequest c) with
  | error e0 => simp
  | ok req =>
    simp only [Client.Do]
    cases hr : (sys.roundTrip w.env req).1 with
    | error e1 => simp
    | ok rsp =>
      cases hs : rsp.Success with
      | false => simp [hs]
      | true =>
        cases hd : rsp.Data with
        | none => simp [hs, hd]
        | some d =>
          cases he : (sys.decodeSid d).2 with
          | some e2 => simp [hs, hd, he]
          | none =>
            simp only [hs, hd, he]
            exact ⟨by simp, fun _ => ⟨req, rsp, d, rfl, hr, hs, hd, he, rfl⟩⟩

/-- C10 on the sample system: the login returns nil, so the request was
built and answered and the client stores the decoded sid. -/
theorem C10_login_atomicity_witness :
    ∃ req rsp d,
      Client.GetRequest (demoSys [] "" true 0) demoClient (loginRequest demoClient) = .ok req ∧
      ((demoSys [] "" true 0).roundTrip demoWorld.env req).1 = .ok rsp ∧
      rsp.Success = true ∧ rsp.Data = some d ∧
      ((demoSys [] "" true 0).decodeSid d).2 = none ∧
      (Client.Login (demoSys [] "" true 0) (some demoClient) demoWorld).2.1 =
        some { demoClient with authSid := ((demoSys [] "" true 0).decodeSid d).1 } :=
  (C10_login_atomicity (demoSys [] "" true 0) demoClient demoWorld).2 rfl

/-! ## The requests a call sends -/

theorem sentImports_append (l1 l2 : List HttpRequest) :
    sentImports (l1 ++ l2) = sentImports l1 ++ sentImports l2 := by
  simp [sentImports, List.filterMap_append]

theorem Do_sent {σ α : Type} (sys : Sys σ) (w : World σ) (r : HttpRequest)
    (data : Option (String → α × Option Error)) (init : α) :
    (Client.Do sys w r data init).2.sent = w.sent ++ [r] := by
  rfl

theorem GetRequest_body {σ : Type} (sys : Sys σ) (c : Client) (r : Request)
    (req : HttpRequest) (h : Client.GetRequest sys c r = .ok req) : req.Body = none := by
  unfold Client.GetRequest at h
  cases hu : Client.Url sys c r with
  | error e => simp [hu] at h
  | ok u =>
    cases hn : sys.newRequest "GET" u with
    | some e => simp [hu, hn] at h
    | none =>
      simp [hu, hn] at h
      rw [← h]

theorem loginCall_imports {σ : Type} (sys : Sys σ) (c : Client) (w : World σ) :
    sentImports (Client.loginCall sys c w).2.2.sent = sentImports w.sent := by
  unfold Client.loginCall
  cases hq : Client.GetRequest sys c (loginRequest c) with
  | error e => rfl
  | ok req =>
    have hb := GetRequest_body sys c _ req hq
    have hs := Do_sent sys w req (some sys.decodeSid) ""
    have key : sentImports (Client.Do sys w req (some sys.decodeSid) "").2.sent =
        sentImports w.sent := by
      rw [hs, sentImports_append]
      simp [sentImports, hb]
    rcases hdo : Client.Do sys w req (some sys.decodeSid) "" with ⟨⟨err, sid⟩, w1⟩
    rw [hdo] at key
    simp only [hdo]
    cases err <;> simpa using key

theorem ListCerts_imports {σ : Type} (sys : Sys σ) (c : Client) (w : World σ) :
    sentImports (Client.ListCerts sys c w).2.sent = sentImports w.sent := by
  unfold Client.ListCerts
  cases hq : Client.GetRequest sys c (certReq "list") with
  | error e => rfl
  | ok req =>
    have hb := GetRequest_body sys c _ req hq
    have hs := Do_sent sys w req (some sys.decodeCerts) []
    simp only
    rw [hs, sentImports_append]
    simp [sentImports, hb]

/-! ## Reconciliation -/

theorem CheckOnce_listed {σ : Type} (sys : Sys σ) (cfg : CertCfg) (c0 c : Client)
    (w w3 : World σ) (ourCert : Certificate) (certs : List Cert)
    (h : ReachesListing sys cfg c0 w ourCert c certs w3) :
    CheckOnce sys (some c0) (some cfg) w =
      if (matchLoop cfg certs Cert.zero).Id = "" then
        if cfg.Id ≠ "" then (some (.text "no cert found with id"), some c, w3)
        else
          match Client.UploadNewCert sys c w3 cfg.Desc cfg.Cert cfg.Key with
          | ((_, some e), w4) => (some (.wrap "failed to put cert." e), some c, w4)
          | ((_, none), w4) => (none, some c, w4)
      else if (matchLoop cfg certs Cert.zero).ValidTill.Equal ourCert.NotAfter then
        (none, some c, w3)
      else
        match Client.ReUploadCert sys c w3 (matchLoop cfg certs Cert.zero).Id
            cfg.Cert cfg.Key with
        | (some e, w4) => (some (.wrap "failed to put cert." e), some c, w4)
        | (none, w4) => (none, some c, w4) := by
  obtain ⟨env1, w2, hlocal, hlogin, hlist⟩ := h
  simp only [CheckOnce, hlocal, hlogin, hlist]

theorem ReachesListing_imports {σ : Type} (sys : Sys σ) (cfg : CertCfg) (c0 c : Client)
    (w w3 : World σ) (ourCert : Certificate) (certs : List Cert)
    (h : ReachesListing sys cfg c0 w ourCert c certs w3) :
    sentImports w3.sent = sentImports w.sent := by
  obtain ⟨env1, w2, _, hlogin, hlist⟩ := h
  have h1 := loginCall_imports sys c0 { w with env := env1 }
  have h2 := ListCerts_imports sys c w2
  rw [hlogin] at h1
  rw [hlist] at h2
  exact h2.trans h1

theorem selected_some {cfg : CertCfg} {certs : List Cert} {m : Cert}
    (h : selected cfg certs = some m) :
    matchLoop cfg certs Cert.zero = m ∧ m.Id ≠ "" := by
  unfold selected at h
  by_cases h0 : (matchLoop cfg certs Cert.zero).Id = ""
  · simp [h0] at h
  · simp only [h0, if_false, Option.some.injEq] at h
    exact ⟨h, h ▸ h0⟩

theorem CheckOnce_noop {σ : Type} (sys : Sys σ) (cfg : CertCfg) (c0 c : Client)
    (w w3 : World σ) (ourCert : Certificate) (certs : List Cert) (m : Cert)
    (h : ReachesListing sys cfg c0 w ourCert c certs w3)
    (hsel : selected cfg certs = some m)
    (heq : m.ValidTill.Equal ourCert.NotAfter = true) :
    CheckOnce sys (some c0) (some cfg) w = (none, some c, w3) := by
  obtain ⟨hm, hid⟩ := selected_some hsel
  rw [CheckOnce_listed sys cfg c0 c w w3 ourCert certs h, hm]
  simp [hid, heq]

/-- C2: when a remote certificate is matched and its `ValidTill` is the same
instant as the local `NotAfter`, `CheckOnce` returns nil and sends no import;
and if every later attempt again reaches the same listing with a local
expiry at that instant, any number of further attempts return nil and send
no import either. -/
theorem C2_noop_idempotent {σ : Type} (sys : Sys σ) (cfg : CertCfg) (c0 c : Client)
    (w w3 : World σ) (ourCert : Certificate) (certs : List Cert) (m : Cert)
    (h : ReachesListing sys cfg c0 w ourCert c certs w3)
    (hsel : selected cfg certs = some m)
    (heq : m.ValidTill.Equal ourCert.NotAfter = true) :
    CheckOnce sys (some c0) (some cfg) w = (none, some c, w3) ∧
    sentImports w3.sent = sentImports w.sent ∧
    ∀ (Inv : Client → World σ → Prop), Inv c0 w →
      (∀ c1 w1, Inv c1 w1 → ∃ cert1 c2 w4, ReachesListing sys cfg c1 w1 cert1 c2 certs w4 ∧
        m.ValidTill.Equal cert1.NotAfter = true ∧ Inv c2 w4) →
      ∀ n : Nat,
        (repeatCheckOnce sys (some cfg) n (some c0) w).1 = List.replicate n none ∧
        sentImports (repeatCheckOnce sys (some cfg) n (some c0) w).2.2.sent =
          sentImports w.sent := by
  refine ⟨CheckOnce_noop sys cfg c0 c w w3 ourCert certs m h hsel heq,
    ReachesListing_imports sys cfg c0 c w w3 ourCert certs h, ?_⟩
  intro Inv hinv hstep n
  clear h heq
  induction n generalizing c0 w with
  | zero => simp [repeatCheckOnce]
  | succ n ih =>
    obtain ⟨cert1, c2, w4, hr, he, hi⟩ := hstep c0 w hinv
    have h1 := CheckOnce_noop sys cfg c0 c2 w w4 cert1 certs m hr hsel he
    have h2 := ReachesListing_imports sys cfg c0 c2 w w4 cert1 certs hr
    obtain ⟨h3, h4⟩ := ih c2 w4 hi
    simp only [repeatCheckOnce, h1]
    refine ⟨?_, ?_⟩
    · simp [h3, List.replicate_succ]
    · simpa [h2] using h4

/-- C7: with a non-empty `cfg.Id` and no listed certificate of that `Id`,
`CheckOnce` returns an error and sends no import, whatever the descriptions
of the listed certificates are. -/
theorem C7_explicit_id_not_found {σ : Type} (sys : Sys σ) (cfg : CertCfg) (c0 c : Client)
    (w w3 : World σ) (ourCert : Certificate) (certs : List Cert)
    (h : ReachesListing sys cfg c0 w ourCert c certs w3)
    (hid : cfg.Id ≠ "") (hnone : ∀ x ∈ certs, x.Id ≠ cfg.Id) :
    CheckOnce sys (some c0) (some cfg) w =
      (some (.text "no cert found with id"), some c, w3) ∧
    sentImports (CheckOnce sys (some c0) (some cfg) w).2.2.sent = sentImports w.sent := by
  have hfind : certs.find? (fun x => x.Id == cfg.Id) = none := by
    simpa using hnone
  have hm : matchLoop cfg certs Cert.zero = Cert.zero := by
    rw [matchLoop_id_zero cfg hid, hfind]; rfl
  have hc : CheckOnce sys (some c0) (some cfg) w =
      (some (.text "no cert found with id"), some c, w3) := by
    rw [CheckOnce_listed sys cfg c0 c w w3 ourCert certs h, hm]
    simp [Cert.zero, hid]
  exact ⟨hc, by rw [hc]; exact ReachesListing_imports sys cfg c0 c w w3 ourCert certs h⟩

/-! ## The sample system reaches the listing -/

theorem demo_reaches (certs : List Cert) (importId : String) (filesOk : Bool)
    (notAfter : Int) (cfg : CertCfg) (c : Client) (w : World Nat)
    (hc : c = demoClient ∨ c = demoClientIn) :
    ReachesListing (demoSys certs importId filesOk notAfter) cfg c w
      { NotAfter := { nanos := notAfter, zone := "Local" } } demoClientIn certs
      (Client.ListCerts (demoSys certs importId filesOk notAfter) demoClientIn
        (Client.loginCall (demoSys certs importId filesOk notAfter) c w).2.2).2 := by
  rcases hc with hc | hc <;> subst hc <;> exact ⟨w.env, _, rfl, rfl, rfl⟩

/-- C2 at a listing whose entry `x` ends at the instant the local certificate
expires: three attempts in a row return nil, and none sends an import call. -/
theorem C2_noop_idempotent_witness :
    (CheckOnce (demoSys [mkCert "d" "x" false 7] "x" true 7) (some demoClient)
        (some cfgById) demoWorld).1 = none ∧
    (repeatCheckOnce (demoSys [mkCert "d" "x" false 7] "x" true 7) (some cfgById) 3
        (some demoClient) demoWorld).1 = [none, none, none] ∧
    sentImports (repeatCheckOnce (demoSys [mkCert "d" "x" false 7] "x" true 7)
        (some cfgById) 3 (some demoClient) demoWorld).2.2.sent = [] := by
  have h := C2_noop_idempotent (demoSys [mkCert "d" "x" false 7] "x" true 7) cfgById
    demoClient demoClientIn demoWorld _ _ [mkCert "d" "x" false 7] (mkCert "d" "x" false 7)
    (demo_reaches _ _ _ _ cfgById demoClient demoWorld (Or.inl rfl)) (by decide) (by decide)
  have h3 := h.2.2 (fun c _ => c = demoClient ∨ c = demoClientIn) (Or.inl rfl)
    (fun c1 w1 hc => ⟨_, _, _, demo_reaches _ _ _ _ cfgById c1 w1 hc, by decide, Or.inr rfl⟩) 3
  exact ⟨by rw [h.1], h3.1, h3.2⟩

/-- C7 at a listing whose only entry has the configured description and
another id. -/
theorem C7_explicit_id_not_found_witness :
    (CheckOnce (demoSys [mkCert "d" "y" false 7] "y" true 9) (some demoClient)
        (some cfgById) demoWorld).1 = some (.text "no cert found with id") ∧
    sentImports (CheckOnce (demoSys [mkCert "d" "y" false 7] "y" true 9) (some demoClient)
        (some cfgById) demoWorld).2.2.sent = [] := by
  have h := C7_explicit_id_not_found (demoSys [mkCert "d" "y" false 7] "y" true 9) cfgById
    demoClient demoClientIn demoWorld _ _ [mkCert "d" "y" false 7]
    (demo_reaches _ _ _ _ cfgById demoClient demoWorld (Or.inl rfl)) (by decide) (by decide)
  exact ⟨by rw [h.1], h.2⟩

/-! ## The import call -/

theorem setCert_cases {σ : Type} (sys : Sys σ) (c : Client) (w : World σ)
    (certPath keyPath : String) (attrs : StrMap) :
    ((∃ e, (Client.setCert sys c w certPath keyPath attrs).1 = ("", some e)) ∧
      (Client.setCert sys c w certPath keyPath attrs).2.sent = w.sent) ∨
    ∃ u key cert env1 env2,
      Client.Url sys c (certReq "import") = .ok u ∧
      addFile sys w.env "key" keyPath = (.ok key, env1) ∧
      addFile sys env1 "cert" certPath = (.ok cert, env2) ∧
      sys.newRequest "POST" u = none ∧
      (Client.setCert sys c w certPath keyPath attrs).2.sent =
        w.sent ++ [importRequest u key cert attrs] ∧
      (∀ newId, (Client.setCert sys c w certPath keyPath attrs).1 = (newId, none) →
        ∃ rsp d, (sys.roundTrip env2 (importRequest u key cert attrs)).1 = .ok rsp ∧
          rsp.Success = true ∧ rsp.Data = some d ∧ sys.decodeId d = (newId, none)) := by
  cases hu : Client.Url sys c (certReq "import") with
  | error e => exact Or.inl (by simp [Client.setCert, hu])
  | ok u =>
    rcases hk : addFile sys w.env "key" keyPath with ⟨rk, env1⟩
    cases rk with
    | error e => exact Or.inl (by simp [Client.setCert, hu, hk])
    | ok key =>
      rcases hcf : addFile sys env1 "cert" certPath with ⟨rc, env2⟩
      cases rc with
      | error e => exact Or.inl (by simp [Client.setCert, hu, hk, hcf])
      | ok cert =>
        cases hn : sys.newRequest "POST" u with
        | some e => exact Or.inl (by simp [Client.setCert, hu, hk, hcf, hn])
        | none =>
          refine Or.inr ⟨u, key, cert, env1, env2, rfl, rfl, hcf, hn, ?_, ?_⟩
          · simp only [Client.setCert, hu, hk, hcf, hn, Client.Do, importRequest]
            split <;> rfl
          · intro newId
            simp only [Client.setCert, hu, hk, hcf, hn, Client.Do, importRequest]
            cases hr : (sys.roundTrip env2 _).1 with
            | error e1 => simp
            | ok rsp =>
              cases hs : rsp.Success with
              | false => simp [hs]
              | true =>
                cases hd : rsp.Data with
                | none => simp [hs, hd]
                | some d =>
                  rcases hdec : sys.decodeId d with ⟨i, err⟩
                  cases err with
                  | some e2 => simp [hs, hd, hdec]
                  | none =>
                    simp only [hs, hd, hdec]
                    intro hi
                    simp at hi
                    exact ⟨rsp, d, rfl, hs, hd, by rw [hdec, hi]⟩

theorem setCert_built {σ : Type} (sys : Sys σ) (c : Client) (w : World σ)
    (certPath keyPath : String) (attrs : StrMap) (u : URL) (key cert : FilePart)
    (env1 env2 : σ)
    (hu : Client.Url sys c (certReq "import") = .ok u)
    (hk : addFile sys w.env "key" keyPath = (.ok key, env1))
    (hcf : addFile sys env1 "cert" certPath = (.ok cert, env2))
    (hn : sys.newRequest "POST" u = none) :
    (Client.setCert sys c w certPath keyPath attrs).2.sent =
      w.sent ++ [importRequest u key cert attrs] := by
  simp only [Client.setCert, hu, hk, hcf, hn, Client.Do, importRequest]
  split <;> rfl

theorem sentImports_importRequest (log : List HttpRequest) (u : URL) (key cert : FilePart)
    (attrs : StrMap) :
    sentImports (log ++ [importRequest u key cert attrs]) = sentImports log ++ [attrs] := by
  rw [sentImports_append]
  simp [sentImports, importRequest]

theorem CheckOnce_create {σ : Type} (sys : Sys σ) (cfg : CertCfg) (c0 c : Client)
    (w w3 : World σ) (ourCert : Certificate) (certs : List Cert)
    (h : ReachesListing sys cfg c0 w ourCert c certs w3)
    (hid : cfg.Id = "") (hdesc : cfg.Desc ≠ "")
    (hnone : ∀ x ∈ certs, x.Description ≠ cfg.Desc) :
    CheckOnce sys (some c0) (some cfg) w =
      match Client.UploadNewCert sys c w3 cfg.Desc cfg.Cert cfg.Key with
      | ((_, some e), w4) => (some (.wrap "failed to put cert." e), some c, w4)
      | ((_, none), w4) => (none, some c, w4) := by
  have hfind : certs.find? (fun x => x.Description == cfg.Desc && x.Id != "") = none := by
    simp only [List.find?_eq_none]
    intro x hx
    simp [hnone x hx]
  have hm := (matchLoop_desc cfg hid hdesc certs Cert.zero rfl).2 hfind
  rw [CheckOnce_listed sys cfg c0 c w w3 ourCert certs h]
  simp [hm, hid]

/-- C3 as stated fails twice.  When the key file cannot be opened by the
time of the upload, the attempt sends no import call at all.  And `CheckOnce`
returns the same for a remote that reports the new id `a` and for one that
reports `b`: the id that `UploadNewCert` returns is not part of what
`CheckOnce` returns. -/
theorem C3_create_path_counterexample :
    (¬ ∀ (sys : Sys Nat) (cfg : CertCfg) (c0 c : Client) (w w3 : World Nat)
        (ourCert : Certificate) (certs : List Cert),
        ReachesListing sys cfg c0 w ourCert c certs w3 →
        cfg.Id = "" → cfg.Desc ≠ "" → (∀ x ∈ certs, x.Description ≠ cfg.Desc) →
        sentImports (CheckOnce sys (some c0) (some cfg) w).2.2.sent =
          sentImports w.sent ++ [[("desc", cfg.Desc)]]) ∧
    ((Client.UploadNewCert (demoSys [] "a" true 9) demoClientIn demoWorld "d"
        "tls.crt" "tls.key").1 = ("a", none) ∧
      (Client.UploadNewCert (demoSys [] "b" true 9) demoClientIn demoWorld "d"
        "tls.crt" "tls.key").1 = ("b", none) ∧
      CheckOnce (demoSys [] "a" true 9) (some demoClient) (some cfgByDesc) demoWorld =
        CheckOnce (demoSys [] "b" true 9) (some demoClient) (some cfgByDesc) demoWorld) := by
  refine ⟨?_, rfl, rfl, rfl⟩
  intro h
  have h1 := h (demoSys [] "a" false 9) cfgByDesc demoClient demoClientIn demoWorld _ _ []
    (demo_reaches _ _ _ _ cfgByDesc demoClient demoWorld (Or.inl rfl)) rfl (by decide)
    (by simp)
  revert h1
  decide

/-- C3, amended: with an empty `cfg.Id`, a non-empty `cfg.Desc` and no listed
certificate of that description, `CheckOnce` goes on as `UploadNewCert`
does and returns nil exactly when `UploadNewCert` returns no error; the
attempt sends at most one import call, exactly one when the import request
is built (the URL builds, both files open and read), and the attributes of
that call are `desc = cfg.Desc` alone; when the import succeeds, the id
that `UploadNewCert` returns to `CheckOnce` is the one decoded from the
answer of the remote. -/
theorem C3_create_path {σ : Type} (sys : Sys σ) (cfg : CertCfg) (c0 c : Client)
    (w w3 : World σ) (ourCert : Certificate) (certs : List Cert)
    (h : ReachesListing sys cfg c0 w ourCert c certs w3)
    (hid : cfg.Id = "") (hdesc : cfg.Desc ≠ "")
    (hnone : ∀ x ∈ certs, x.Description ≠ cfg.Desc) :
    (CheckOnce sys (some c0) (some cfg) w).2.2 =
      (Client.UploadNewCert sys c w3 cfg.Desc cfg.Cert cfg.Key).2 ∧
    ((CheckOnce sys (some c0) (some cfg) w).1 = none ↔
      (Client.UploadNewCert sys c w3 cfg.Desc cfg.Cert cfg.Key).1.2 = none) ∧
    (sentImports (CheckOnce sys (some c0) (some cfg) w).2.2.sent = sentImports w.sent ∨
      sentImports (CheckOnce sys (some c0) (some cfg) w).2.2.sent =
        sentImports w.sent ++ [[("desc", cfg.Desc)]]) ∧
    (∀ u key cert env1 env2,
      Client.Url sys c (certReq "import") = .ok u →
      addFile sys w3.env "key" cfg.Key = (.ok key, env1) →
      addFile sys env1 "cert" cfg.Cert = (.ok cert, env2) →
      sys.newRequest "POST" u = none →
      sentImports (CheckOnce sys (some c0) (some cfg) w).2.2.sent =
        sentImports w.sent ++ [[("desc", cfg.Desc)]]) ∧
    (∀ newId, (Client.UploadNewCert sys c w3 cfg.Desc cfg.Cert cfg.Key).1 = (newId, none) →
      (CheckOnce sys (some c0) (some cfg) w).1 = none ∧
      sentImports (CheckOnce sys (some c0) (some cfg) w).2.2.sent =
        sentImports w.sent ++ [[("desc", cfg.Desc)]] ∧
      ∃ u key cert env2 rsp d,
        (sys.roundTrip env2 (importRequest u key cert [("desc", cfg.Desc)])).1 = .ok rsp ∧
        rsp.Success = true ∧ rsp.Data = some d ∧ sys.decodeId d = (newId, none)) := by
  have hc := CheckOnce_create sys cfg c0 c w w3 ourCert certs h hid hdesc hnone
  have hpre := ReachesListing_imports sys cfg c0 c w w3 ourCert certs h
  have hw : (CheckOnce sys (some c0) (some cfg) w).2.2 =
      (Client.UploadNewCert sys c w3 cfg.Desc cfg.Cert cfg.Key).2 := by
    rw [hc]
    rcases Client.UploadNewCert sys c w3 cfg.Desc cfg.Cert cfg.Key with ⟨⟨i, err⟩, w4⟩
    cases err <;> rfl
  have he : (CheckOnce sys (some c0) (some cfg) w).1 = none ↔
      (Client.UploadNewCert sys c w3 cfg.Desc cfg.Cert cfg.Key).1.2 = none := by
    rw [hc]
    rcases Client.UploadNewCert sys c w3 cfg.Desc cfg.Cert cfg.Key with ⟨⟨i, err⟩, w4⟩
    cases err <;> simp
  have hcases := setCert_cases sys c w3 cfg.Cert cfg.Key [("desc", cfg.Desc)]
  refine ⟨hw, he, ?_, ?_, ?_⟩
  · rw [hw]
    rcases hcases with ⟨_, hs⟩ | ⟨u, key, cert, env1, env2, _, _, _, _, hs, _⟩
    · left
      show sentImports (Client.setCert sys c w3 cfg.Cert cfg.Key _).2.sent = _
      rw [hs, hpre]
    · right
      show sentImports (Client.setCert sys c w3 cfg.Cert cfg.Key _).2.sent = _
      rw [hs, sentImports_importRequest, hpre]
  · intro u key cert env1 env2 hu hk hcf hn
    rw [hw]
    show sentImports (Client.setCert sys c w3 cfg.Cert cfg.Key _).2.sent = _
    rw [setCert_built sys c w3 cfg.Cert cfg.Key _ u key cert env1 env2 hu hk hcf hn,
      sentImports_importRequest, hpre]
  · intro newId hnew
    have hnew2 : (Client.setCert sys c w3 cfg.Cert cfg.Key [("desc", cfg.Desc)]).1 =
        (newId, none) := hnew
    rcases hcases with ⟨⟨e, hfail⟩, _⟩ | ⟨u, key, cert, env1, env2, _, _, _, _, hs, hid2⟩
    · rw [hfail] at hnew2
      simp at hnew2
    · refine ⟨he.2 (by rw [hnew]), ?_, ?_⟩
      · rw [hw]
        show sentImports (Client.setCert sys c w3 cfg.Cert cfg.Key _).2.sent = _
        rw [hs, sentImports_importRequest, hpre]
      · obtain ⟨rsp, d, h1, h2, h3, h4⟩ := hid2 newId hnew2
        exact ⟨u, key, cert, env2, rsp, d, h1, h2, h3, h4⟩

/-- C3 (amended) on the sample system with an empty listing: the attempt
returns nil after one import call that carries the description alone. -/
theorem C3_create_path_witness :
    (CheckOnce (demoSys [] "new" true 9) (some demoClient) (some cfgByDesc) demoWorld).1
      = none ∧
    sentImports (CheckOnce (demoSys [] "new" true 9) (some demoClient) (some cfgByDesc)
      demoWorld).2.2.sent = [[("desc", "d")]] := by
  have h := C3_create_path (demoSys [] "new" true 9) cfgByDesc demoClient demoClientIn
    demoWorld _ _ []
    (demo_reaches _ _ _ _ cfgByDesc demoClient demoWorld (Or.inl rfl)) rfl (by decide)
    (by simp)
  have h5 := h.2.2.2.2 "new" rfl
  exact ⟨h5.1, h5.2.1⟩

/-! ## Replacing a certificate -/

theorem findById_eq (id : String) (certs : List Cert) :
    findById id certs Cert.zero = (certs.find? (fun x => x.Id == id)).getD Cert.zero := by
  induction certs with
  | nil => rfl
  | cons x rest ih =>
    by_cases hx : x.Id = id
    · simp [findById, hx]
    · simp [findById, hx, ih]

theorem findById_id (id : String) (certs : List Cert)
    (h : (findById id certs Cert.zero).Id ≠ "") : (findById id certs Cert.zero).Id = id := by
  rw [findById_eq] at h ⊢
  cases hf : certs.find? (fun x => x.Id == id) with
  | none => simp [hf, Cert.zero] at h
  | some m => simpa using List.find?_some hf

theorem ReUploadCert_listed {σ : Type} (sys : Sys σ) (c : Client) (w w1 : World σ)
    (id certPath keyPath : String) (certs2 : List Cert)
    (hlist : Client.ListCerts sys c w = ((certs2, none), w1)) :
    Client.ReUploadCert sys c w id certPath keyPath =
      if (findById id certs2 Cert.zero).Id = "" then
        (some (.text "failed to find cert with id"), w1)
      else
        match Client.setCert sys c w1 certPath keyPath
            (replaceAttrs (findById id certs2 Cert.zero)) with
        | ((_, some e), w2) => (some (.wrap "failed to reupload cert." e), w2)
        | ((newId, none), w2) =>
          if newId ≠ id then (some (.text "the cert id has changed"), w2) else (none, w2) := by
  simp only [Client.ReUploadCert, hlist]

theorem ReUploadCert_world {σ : Type} (sys : Sys σ) (c : Client) (w w1 : World σ)
    (id certPath keyPath : String) (certs2 : List Cert)
    (hlist : Client.ListCerts sys c w = ((certs2, none), w1))
    (hfound : (findById id certs2 Cert.zero).Id ≠ "") :
    (Client.ReUploadCert sys c w id certPath keyPath).2 =
      (Client.setCert sys c w1 certPath keyPath
        (replaceAttrs (findById id certs2 Cert.zero))).2 := by
  rw [ReUploadCert_listed sys c w w1 id certPath keyPath certs2 hlist]
  simp only [hfound, if_false]
  rcases Client.setCert sys c w1 certPath keyPath
    (replaceAttrs (findById id certs2 Cert.zero)) with ⟨⟨newId, err⟩, w2⟩
  cases err with
  | some e => rfl
  | none => by_cases hn : newId = id <;> simp [hn]

theorem ReUploadCert_imports {σ : Type} (sys : Sys σ) (c : Client) (w : World σ)
    (id certPath keyPath : String) :
    sentImports (Client.ReUploadCert sys c w id certPath keyPath).2.sent =
      sentImports w.sent ∨
    ∃ certs2 w1, Client.ListCerts sys c w = ((certs2, none), w1) ∧
      (findById id certs2 Cert.zero).Id = id ∧
      sentImports (Client.ReUploadCert sys c w id certPath keyPath).2.sent =
        sentImports w.sent ++ [replaceAttrs (findById id certs2 Cert.zero)] := by
  have hl := ListCerts_imports sys c w
  rcases hlist : Client.ListCerts sys c w with ⟨⟨certs2, err⟩, w1⟩
  rw [hlist] at hl
  cases err with
  | some e =>
    left
    simpa [Client.ReUploadCert, hlist] using hl
  | none =>
    by_cases hfound : (findById id certs2 Cert.zero).Id = ""
    · left
      rw [ReUploadCert_listed sys c w w1 id certPath keyPath certs2 hlist]
      simpa [hfound] using hl
    · rw [ReUploadCert_world sys c w w1 id certPath keyPath certs2 hlist hfound]
      rcases setCert_cases sys c w1 certPath keyPath
          (replaceAttrs (findById id certs2 Cert.zero)) with
        ⟨_, hs⟩ | ⟨u, key, cert, env1, env2, _, _, _, _, hs, _⟩
      · left
        rw [hs]
        exact hl
      · right
        refine ⟨certs2, w1, rfl, findById_id id certs2 hfound, ?_⟩
        rw [hs, sentImports_importRequest]
        simpa using hl

theorem CheckOnce_replace {σ : Type} (sys : Sys σ) (cfg : CertCfg) (c0 c : Client)
    (w w3 : World σ) (ourCert : Certificate) (certs : List Cert) (m : Cert)
    (h : ReachesListing sys cfg c0 w ourCert c certs w3)
    (hsel : selected cfg certs = some m)
    (hne : m.ValidTill.Equal ourCert.NotAfter = false) :
    CheckOnce sys (some c0) (some cfg) w =
      match Client.ReUploadCert sys c w3 m.Id cfg.Cert cfg.Key with
      | (some e, w4) => (some (.wrap "failed to put cert." e), some c, w4)
      | (none, w4) => (none, some c, w4) := by
  obtain ⟨hm, hid⟩ := selected_some hsel
  rw [CheckOnce_listed sys cfg c0 c w w3 ourCert certs h, hm]
  simp [hid, hne]

theorem CheckOnce_replace_world {σ : Type} (sys : Sys σ) (cfg : CertCfg) (c0 c : Client)
    (w w3 : World σ) (ourCert : Certificate) (certs : List Cert) (m : Cert)
    (h : ReachesListing sys cfg c0 w ourCert c certs w3)
    (hsel : selected cfg certs = some m)
    (hne : m.ValidTill.Equal ourCert.NotAfter = false) :
    (CheckOnce sys (some c0) (some cfg) w).2.2 =
      (Client.ReUploadCert sys c w3 m.Id cfg.Cert cfg.Key).2 := by
  rw [CheckOnce_replace sys cfg c0 c w w3 ourCert certs m h hsel hne]
  rcases Client.ReUploadCert sys c w3 m.Id cfg.Cert cfg.Key with ⟨err, w4⟩
  cases err <;> rfl

/-- C4: when the import call of a replace of certificate `id` succeeds but
answers another id, `ReUploadCert` returns the error "the cert id has
changed", and a `CheckOnce` that got here returns that error wrapped; both
leave the world as the import call left it, with the import request as the
last request sent. -/
theorem C4_replace_identity_check {σ : Type} (sys : Sys σ) (c : Client)
    (w3 w4 w5 : World σ) (id certPath keyPath newId : String) (certs2 : List Cert)
    (hlist : Client.ListCerts sys c w3 = ((certs2, none), w4))
    (hfound : (findById id certs2 Cert.zero).Id ≠ "")
    (hset : Client.setCert sys c w4 certPath keyPath
      (replaceAttrs (findById id certs2 Cert.zero)) = ((newId, none), w5))
    (hne : newId ≠ id) :
    Client.ReUploadCert sys c w3 id certPath keyPath =
      (some (.text "the cert id has changed"), w5) ∧
    (∃ u key cert, w5.sent =
      w4.sent ++ [importRequest u key cert (replaceAttrs (findById id certs2 Cert.zero))]) ∧
    ∀ (cfg : CertCfg) (c0 : Client) (w : World σ) (ourCert : Certificate)
      (certs : List Cert) (m : Cert),
      ReachesListing sys cfg c0 w ourCert c certs w3 →
      selected cfg certs = some m → m.Id = id → cfg.Cert = certPath → cfg.Key = keyPath →
      m.ValidTill.Equal ourCert.NotAfter = false →
      CheckOnce sys (some c0) (some cfg) w =
        (some (.wrap "failed to put cert." (.text "the cert id has changed")), some c, w5) := by
  have hre : Client.ReUploadCert sys c w3 id certPath keyPath =
      (some (.text "the cert id has changed"), w5) := by
    rw [ReUploadCert_listed sys c w3 w4 id certPath keyPath certs2 hlist]
    simp [hfound, hset, hne]
  refine ⟨hre, ?_, ?_⟩
  · rcases setCert_cases sys c w4 certPath keyPath
        (replaceAttrs (findById id certs2 Cert.zero)) with
      ⟨⟨e, hfail⟩, _⟩ | ⟨u, key, cert, env1, env2, _, _, _, _, hs, _⟩
    · rw [hset] at hfail
      simp at hfail
    · rw [hset] at hs
      exact ⟨u, key, cert, hs⟩
  · intro cfg c0 w ourCert certs m hreach hsel hmid hcp hkp hneq
    rw [CheckOnce_replace sys cfg c0 c w w3 ourCert certs m hreach hsel hneq,
      hmid, hcp, hkp, hre]

/-- C4 on the sample system: the listing holds certificate `x`, whose
validity ends at another instant than the local one, and the import answers
`y`. -/
theorem C4_replace_identity_check_witness :
    (CheckOnce (demoSys [mkCert "d" "x" false 5] "y" true 9) (some demoClient)
        (some cfgById) demoWorld).1 =
      some (.wrap "failed to put cert." (.text "the cert id has changed")) ∧
    sentImports (CheckOnce (demoSys [mkCert "d" "x" false 5] "y" true 9) (some demoClient)
        (some cfgById) demoWorld).2.2.sent =
      [[("id", "x"), ("desc", "d"), ("as_default", "false")]] := by
  have h := (C4_replace_identity_check (demoSys [mkCert "d" "x" false 5] "y" true 9)
    demoClientIn _ _ _ "x" "tls.crt" "tls.key" "y" [mkCert "d" "x" false 5] rfl (by decide)
    rfl (by decide)).2.2 cfgById demoClient demoWorld _ [mkCert "d" "x" false 5]
    (mkCert "d" "x" false 5)
    (demo_reaches _ _ _ _ cfgById demoClient demoWorld (Or.inl rfl)) (by decide) rfl rfl rfl
    (by decide)
  rw [h]
  exact ⟨rfl, by decide⟩

/-- C5 as stated fails: two listed certificates share the id `x`; the
description selects the second, and the import call carries the description
and the default flag of the first, which is the one that `ReUploadCert`
finds by id. -/
theorem C5_replace_attributes_counterexample :
    ¬ ∀ (sys : Sys Nat) (cfg : CertCfg) (c0 c : Client) (w w3 : World Nat)
        (ourCert : Certificate) (certs : List Cert) (m : Cert),
        ReachesListing sys cfg c0 w ourCert c certs w3 →
        selected cfg certs = some m →
        m.ValidTill.Equal ourCert.NotAfter = false →
        ∀ attrs, sentImports (CheckOnce sys (some c0) (some cfg) w).2.2.sent =
            sentImports w.sent ++ [attrs] →
          attrs = [("id", m.Id), ("desc", m.Description),
            ("as_default", fmtBool m.IsDefault)] := by
  intro h
  have h1 := h (demoSys [mkCert "a" "x" true 5, mkCert "d" "x" false 5] "x" true 9)
    cfgByDesc demoClient demoClientIn demoWorld _ _
    [mkCert "a" "x" true 5, mkCert "d" "x" false 5] (mkCert "d" "x" false 5)
    (demo_reaches _ _ _ _ cfgByDesc demoClient demoWorld (Or.inl rfl)) (by decide)
    (by decide) [("id", "x"), ("desc", "a"), ("as_default", "true")] (by decide)
  revert h1
  decide

theorem findById_selected (cfg : CertCfg) (certs : List Cert) (m : Cert)
    (hsel : selected cfg certs = some m)
    (hfirst : cfg.Id ≠ "" ∨ ∀ x ∈ certs, x.Id = m.Id → x = m) :
    findById m.Id certs Cert.zero = m := by
  rw [findById_eq]
  rcases hfirst with hid | huniq
  · have h1 := selected_id cfg hid certs
    rw [hsel] at h1
    have h2 : m.Id = cfg.Id := by simpa using List.find?_some h1.symm
    rw [h2, ← h1]
    rfl
  · obtain ⟨hm, hne⟩ := selected_some hsel
    have hmem : m ∈ certs := by
      by_cases hid : cfg.Id = ""
      · by_cases hdesc : cfg.Desc = ""
        · exfalso
          have : ∀ (l : List Cert) (e : Cert), matchLoop cfg l e = e := by
            intro l
            induction l with
            | nil => intro e; rfl
            | cons x rest ih =>
              intro e
              by_cases he : e.Id = "" <;> simp [matchLoop, hid, hdesc, he, ih]
          rw [this] at hm
          exact hne (hm ▸ rfl)
        · cases hf : certs.find? (fun c => c.Description == cfg.Desc && c.Id != "") with
          | none =>
            exact absurd (hm ▸ (matchLoop_desc cfg hid hdesc certs Cert.zero rfl).2 hf) hne
          | some m2 =>
            have := (matchLoop_desc cfg hid hdesc certs Cert.zero rfl).1 m2 hf
            rw [hm] at this
            subst this
            exact List.mem_of_find?_eq_some hf
      · have h1 := selected_id cfg hid certs
        rw [hsel] at h1
        exact List.mem_of_find?_eq_some h1.symm
    cases hf : certs.find? (fun x => x.Id == m.Id) with
    | none =>
      have := List.find?_eq_none.1 hf m hmem
      simp at this
    | some x =>
      have hx : x.Id = m.Id := by simpa using List.find?_some hf
      simp [huniq x (List.mem_of_find?_eq_some hf) hx]

/-- C5, amended: when a remote certificate `m` is matched and its `ValidTill`
differs from the local `NotAfter`, the attempt goes on as `ReUploadCert m.Id`
does, which lists the certificates again; an import call, if one is sent,
carries `id = m.Id` and the description and default flag of the first entry
with that id in the second listing.  When the second listing equals the
first and `m` is the first entry of its id (so always with a non-empty
`cfg.Id`, or when the ids of the listing are distinct), the attributes are
`id = m.Id`, `desc = m.Description`, `as_default = m.IsDefault`, and the
call is sent whenever the import request is built. -/
theorem C5_replace_attributes {σ : Type} (sys : Sys σ) (cfg : CertCfg) (c0 c : Client)
    (w w3 : World σ) (ourCert : Certificate) (certs : List Cert) (m : Cert)
    (h : ReachesListing sys cfg c0 w ourCert c certs w3)
    (hsel : selected cfg certs = some m)
    (hne : m.ValidTill.Equal ourCert.NotAfter = false) :
    (CheckOnce sys (some c0) (some cfg) w).2.2 =
      (Client.ReUploadCert sys c w3 m.Id cfg.Cert cfg.Key).2 ∧
    (sentImports (CheckOnce sys (some c0) (some cfg) w).2.2.sent = sentImports w.sent ∨
      ∃ certs2 w4, Client.ListCerts sys c w3 = ((certs2, none), w4) ∧
        (findById m.Id certs2 Cert.zero).Id = m.Id ∧
        sentImports (CheckOnce sys (some c0) (some cfg) w).2.2.sent =
          sentImports w.sent ++ [replaceAttrs (findById m.Id certs2 Cert.zero)]) ∧
    (∀ w4, Client.ListCerts sys c w3 = ((certs, none), w4) →
      (cfg.Id ≠ "" ∨ ∀ x ∈ certs, x.Id = m.Id → x = m) →
      (sentImports (CheckOnce sys (some c0) (some cfg) w).2.2.sent = sentImports w.sent ∨
        sentImports (CheckOnce sys (some c0) (some cfg) w).2.2.sent =
          sentImports w.sent ++
            [[("id", m.Id), ("desc", m.Description), ("as_default", fmtBool m.IsDefault)]]) ∧
      (∀ u key cert env1 env2,
        Client.Url sys c (certReq "import") = .ok u →
        addFile sys w4.env "key" cfg.Key = (.ok key, env1) →
        addFile sys env1 "cert" cfg.Cert = (.ok cert, env2) →
        sys.newRequest "POST" u = none →
        sentImports (CheckOnce sys (some c0) (some cfg) w).2.2.sent =
          sentImports w.sent ++
            [[("id", m.Id), ("desc", m.Description), ("as_default", fmtBool m.IsDefault)]])) := by
  have hw := CheckOnce_replace_world sys cfg c0 c w w3 ourCert certs m h hsel hne
  have hpre := ReachesListing_imports sys cfg c0 c w w3 ourCert certs h
  refine ⟨hw, ?_, ?_⟩
  · rw [hw]
    rcases ReUploadCert_imports sys c w3 m.Id cfg.Cert cfg.Key with h1 | ⟨certs2, w4, h1, h2, h3⟩
    · left
      rw [h1, hpre]
    · right
      exact ⟨certs2, w4, h1, h2, by rw [h3, hpre]⟩
  · intro w4 hlist2 hfirst
    have hf := findById_selected cfg certs m hsel hfirst
    have hfound : (findById m.Id certs Cert.zero).Id ≠ "" := by
      rw [hf]
      exact (selected_some hsel).2
    have hw2 := ReUploadCert_world sys c w3 w4 m.Id cfg.Cert cfg.Key certs hlist2 hfound
    have hl := ListCerts_imports sys c w3
    rw [hlist2] at hl
    rw [hf] at hw2
    rw [hw, hw2]
    constructor
    · rcases setCert_cases sys c w4 cfg.Cert cfg.Key (replaceAttrs m) with
        ⟨_, hs⟩ | ⟨u, key, cert, env1, env2, _, _, _, _, hs, _⟩
      · left
        rw [hs, ← hpre]
        exact hl
      · right
        rw [hs, sentImports_importRequest, ← hpre]
        simp only [replaceAttrs]
        rw [show sentImports w4.sent = sentImports w3.sent from hl]
    · intro u key cert env1 env2 hu hk hcf hn
      rw [setCert_built sys c w4 cfg.Cert cfg.Key _ u key cert env1 env2 hu hk hcf hn,
        sentImports_importRequest, ← hpre]
      simp only [replaceAttrs]
      rw [show sentImports w4.sent = sentImports w3.sent from hl]

/-- C5 (amended) on the sample system, where the second listing equals the
first: the certificate selected by id is replaced with its own attributes. -/
theorem C5_replace_attributes_witness :
    sentImports (CheckOnce (demoSys [mkCert "a" "y" false 5, mkCert "d" "x" true 5] "x" true 9)
        (some demoClient) (some cfgById) demoWorld).2.2.sent =
      [[("id", "x"), ("desc", "d"), ("as_default", "true")]] :=
  ((C5_replace_attributes (demoSys [mkCert "a" "y" false 5, mkCert "d" "x" true 5] "x" true 9)
    cfgById demoClient demoClientIn demoWorld _ _
    [mkCert "a" "y" false 5, mkCert "d" "x" true 5] (mkCert "d" "x" true 5)
    (demo_reaches _ _ _ _ cfgById demoClient demoWorld (Or.inl rfl)) (by decide)
    (by decide)).2.2 _ rfl (Or.inl (by decide))).2 _ _ _ _ _ rfl rfl rfl rfl

/-! ## The debounce of `doCheck` -/

theorem Sub_lt_maxUpdateFreq (t u : Time) :
    t.Sub u < maxUpdateFreq ↔ t.nanos - u.nanos < maxUpdateFreq := by
  simp only [Time.Sub, maxUpdateFreq]
  norm_num
  split_ifs <;> omega

theorem doCheck_skip {σ : Type} (sys : Sys σ) (cfg : Option CertCfg) (clk : Clock)
    (st : Loop σ) (h : clk.since.nanos - st.last.nanos < maxUpdateFreq) :
    doCheck sys cfg clk st = (none, st) := by
  simp [doCheck, (Sub_lt_maxUpdateFreq clk.since st.last).2 h]

theorem doCheck_run {σ : Type} (sys : Sys σ) (cfg : Option CertCfg) (clk : Clock)
    (st : Loop σ) (h : ¬ clk.since.nanos - st.last.nanos < maxUpdateFreq) :
    (doCheck sys cfg clk st).2.last = clk.now ∧
    (doCheck sys cfg clk st).2.starts = st.starts ++ [clk.now] ∧
    (doCheck sys cfg clk st).1 = (CheckOnce sys st.client cfg st.world).1 := by
  have h1 : ¬ clk.since.Sub st.last < maxUpdateFreq :=
    fun h0 => h ((Sub_lt_maxUpdateFreq clk.since st.last).1 h0)
  simp [doCheck, h1]

theorem doCheck_spaced {σ : Type} (sys : Sys σ) (cfg : Option CertCfg) (clk : Clock)
    (st : Loop σ) (hclk : clk.since.nanos ≤ clk.now.nanos) (hst : Spaced st) :
    Spaced (doCheck sys cfg clk st).2 := by
  by_cases h : clk.since.nanos - st.last.nanos < maxUpdateFreq
  · rw [doCheck_skip sys cfg clk st h]
    exact hst
  · obtain ⟨h1, h2, _⟩ := doCheck_run sys cfg clk st h
    unfold Spaced
    rw [h1, h2]
    constructor
    · rw [List.pairwise_append]
      refine ⟨hst.1, List.pairwise_singleton _ _, ?_⟩
      intro a ha b hb
      have hb2 : b = clk.now := by simpa using hb
      subst hb2
      have := hst.2 a ha
      omega
    · intro a ha
      rcases List.mem_append.1 ha with ha | ha
      · have := hst.2 a ha
        have hm : (0 : Int) ≤ maxUpdateFreq := by decide
        omega
      · have : a = clk.now := by simpa using ha
        rw [this]

theorem eventLoop_spaced {σ : Type} (sys : Sys σ) (cfg : Option CertCfg)
    (events : List Event)
    (hev : ∀ clk, (Event.tick clk ∈ events ∨ Event.fileEvent clk ∈ events) →
      clk.since.nanos ≤ clk.now.nanos) :
    ∀ st : Loop σ, Spaced st → Spaced (eventLoop sys cfg events st).2 := by
  induction events with
  | nil => intro st hst; exact hst
  | cons ev rest ih =>
    have hrest : ∀ clk, (Event.tick clk ∈ rest ∨ Event.fileEvent clk ∈ rest) →
        clk.since.nanos ≤ clk.now.nanos := by
      intro clk h
      exact hev clk (h.imp (List.mem_cons_of_mem _) (List.mem_cons_of_mem _))
    intro st hst
    cases ev with
    | tick clk =>
      have hs := doCheck_spaced sys cfg clk st (hev clk (Or.inl (by simp))) hst
      rcases hd : doCheck sys cfg clk st with ⟨err, st1⟩
      rw [hd] at hs
      cases err with
      | some e => simpa [eventLoop, hd] using hs
      | none => simpa [eventLoop, hd] using ih hrest st1 hs
    | fileEvent clk =>
      have hs := doCheck_spaced sys cfg clk st (hev clk (Or.inr (by simp))) hst
      rcases hd : doCheck sys cfg clk st with ⟨err, st1⟩
      rw [hd] at hs
      cases err with
      | some e => simpa [eventLoop, hd] using hs
      | none => simpa [eventLoop, hd] using ih hrest st1 hs
    | eventsClosed => simpa [eventLoop] using hst
    | watchError => simpa [eventLoop] using ih hrest st hst
    | errorsClosed => simpa [eventLoop] using hst

theorem CheckForever_spaced {σ : Type} (sys : Sys σ) (client : Option Client)
    (cfg : Option CertCfg) (freq : Int) (first : Clock) (events : List Event) (w : World σ)
    (hfirst : first.since.nanos ≤ first.now.nanos)
    (hev : ∀ clk, (Event.tick clk ∈ events ∨ Event.fileEvent clk ∈ events) →
      clk.since.nanos ≤ clk.now.nanos) :
    Spaced (CheckForever sys client cfg freq first events w).2 := by
  have h0 : ∀ w0 : World σ, Spaced
      ({ last := Time.zero, client := client, world := w0, starts := [] } : Loop σ) :=
    fun w0 => ⟨List.Pairwise.nil, by simp⟩
  unfold CheckForever
  cases cfg with
  | none => exact h0 w
  | some cfg =>
    by_cases hf : freq ≤ 0
    · simpa [hf] using h0 w
    · simp only [hf, if_false]
      rcases hn : sys.newWatcher w.env with ⟨e1, env1⟩
      cases e1 with
      | some e => exact h0 _
      | none =>
        rcases ha : addWatches sys [cfg.Cert, cfg.Key] env1 with ⟨e2, env2⟩
        cases e2 with
        | some e => simpa [ha] using h0 _
        | none =>
          simp only [ha]
          have hs := doCheck_spaced sys (some cfg) first _ hfirst (h0 { w with env := env2 })
          rcases hd : doCheck sys (some cfg) first
            { last := Time.zero, client := client, world := { w with env := env2 },
              starts := [] } with ⟨err, st1⟩
          rw [hd] at hs
          cases err with
          | some e => exact hs
          | none => exact eventLoop_spaced sys (some cfg) events hev st1 hs

/-- C8: if a call of `doCheck` whose `time.Since` is read at `t1` runs the
reconciler, the next call, whose `time.Since` is read at `t2` with
`t1 <= t2` and `t2 - t1` under 30 seconds, returns nil and leaves `last`,
the client and the world as they were, so it makes no call of `CheckOnce`;
and in every run of `CheckForever` the start times of any two attempts that
ran are at least 30 seconds apart.  The clock does not go back between the
two readings of one call. -/
theorem C8_debounce {σ : Type} (sys : Sys σ) (cfg : Option CertCfg) :
    (∀ (st : Loop σ) (clk1 clk2 : Clock),
      clk1.since.nanos ≤ clk1.now.nanos →
      maxUpdateFreq ≤ clk1.since.Sub st.last →
      clk1.since.nanos ≤ clk2.since.nanos →
      clk2.since.nanos - clk1.since.nanos < maxUpdateFreq →
      (doCheck sys cfg clk1 st).2.starts = st.starts ++ [clk1.now] ∧
      (doCheck sys cfg clk1 st).2.last = clk1.now ∧
      doCheck sys cfg clk2 (doCheck sys cfg clk1 st).2 =
        (none, (doCheck sys cfg clk1 st).2)) ∧
    (∀ (client : Option Client) (freq : Int) (first : Clock) (events : List Event)
      (w : World σ),
      first.since.nanos ≤ first.now.nanos →
      (∀ clk, (Event.tick clk ∈ events ∨ Event.fileEvent clk ∈ events) →
        clk.since.nanos ≤ clk.now.nanos) →
      (CheckForever sys client cfg freq first events w).2.starts.Pairwise
        (fun a b => a.nanos + maxUpdateFreq ≤ b.nanos)) := by
  constructor
  · intro st clk1 clk2 h1 hran _ h12
    have hr : ¬ clk1.since.nanos - st.last.nanos < maxUpdateFreq := by
      intro h0
      have := (Sub_lt_maxUpdateFreq clk1.since st.last).2 h0
      omega
    obtain ⟨hl, hs, _⟩ := doCheck_run sys cfg clk1 st hr
    refine ⟨hs, hl, doCheck_skip sys cfg clk2 _ ?_⟩
    rw [hl]
    omega
  · intro client freq first events w hfirst hev
    exact (CheckForever_spaced sys client cfg freq first events w hfirst hev).1

/-- C8 on the sample system: started at second 100, with triggers at seconds
110, 125 and 140, the attempts that run start at seconds 101 and 141. -/
theorem C8_debounce_witness :
    doCheck (demoSys [mkCert "d" "x" false 7] "x" true 7) (some cfgById) (clockAt 110 111)
        (doCheck (demoSys [mkCert "d" "x" false 7] "x" true 7) (some cfgById)
          (clockAt 100 101)
          { last := Time.zero, client := some demoClient, world := demoWorld,
            starts := [] }).2 =
      (none, (doCheck (demoSys [mkCert "d" "x" false 7] "x" true 7) (some cfgById)
          (clockAt 100 101)
          { last := Time.zero, client := some demoClient, world := demoWorld,
            starts := [] }).2) ∧
    (CheckForever (demoSys [mkCert "d" "x" false 7] "x" true 7) (some demoClient)
        (some cfgById) 3600000000000 (clockAt 100 101)
        [.tick (clockAt 110 111), .fileEvent (clockAt 125 126), .watchError,
          .tick (clockAt 140 141)] demoWorld).2.starts =
      [(clockAt 100 101).now, (clockAt 140 141).now] ∧
    (CheckForever (demoSys [mkCert "d" "x" false 7] "x" true 7) (some demoClient)
        (some cfgById) 3600000000000 (clockAt 100 101)
        [.tick (clockAt 110 111), .fileEvent (clockAt 125 126), .watchError,
          .tick (clockAt 140 141)] demoWorld).2.starts.Pairwise
      (fun a b => a.nanos + maxUpdateFreq ≤ b.nanos) := by
  have h := C8_debounce (demoSys [mkCert "d" "x" false 7] "x" true 7) (some cfgById)
  refine ⟨(h.1 _ (clockAt 100 101) (clockAt 110 111) (by decide) (by decide) (by decide)
    (by decide)).2.2, by decide, h.2 _ _ _ _ _ (by decide) ?_⟩
  intro clk hclk
  simp only [List.mem_cons, List.mem_singleton, Event.tick.injEq, Event.fileEvent.injEq,
    reduceCtorEq, List.not_mem_nil, or_false, false_or] at hclk
  rcases hclk with (h1 | h1) | h1
  · subst h1; decide
  · subst h1; decide
  · subst h1; decide

end Dsmcert
